import Mathlib

/-!
Verification of the Mass Mobilization protest dashboard (`src/app.py`).

The dashboard is a linear pipeline: load a spreadsheet into a table,
filter rows by sidebar constraints, and aggregate the filtered subset
into KPI scalars and chart tables.  This file gives a shallow embedding
of that pipeline over lists of rows: each pandas column operation is
translated to an explicit, executable Lean function, and the properties
stated in the specification are proved about those functions.
-/

namespace MassMob

/-- A calendar date built from raw start-year/month/day parts. -/
structure Date where
  y : Int
  m : Int
  d : Int
deriving DecidableEq, Repr

/-- A raw spreadsheet cell for the free-form `participants` column:
it may hold a number, text, or be empty. -/
inductive Cell where
  | num (n : Int)
  | str (s : String)
  | blank
deriving DecidableEq, Repr

/-- Gregorian leap-year test, used to validate day-of-month. -/
def isLeapYear (y : Int) : Bool :=
  (y % 4 == 0 && y % 100 != 0) || (y % 400 == 0)

/-- Number of days in a month of a given year. -/
def daysInMonth (y m : Int) : Int :=
  if m == 2 then (if isLeapYear y then 29 else 28)
  else if m == 4 || m == 6 || m == 9 || m == 11 then 30
  else 31

/-- `pd.to_datetime(..., errors="coerce")` over year/month/day columns:
a valid calendar combination becomes a date, anything else becomes
missing (`NaT`) instead of raising. -/
def mkDate (y m d : Int) : Option Date :=
  if 1 ≤ m && m ≤ 12 && 1 ≤ d && d ≤ daysInMonth y m then
    some ⟨y, m, d⟩
  else
    none

/-- `pd.to_numeric(cell, errors="coerce")`: numbers pass through, text is
parsed best-effort, anything unparseable becomes missing (`NaN`). -/
def toNumeric : Cell → Option Int
  | .num n => some n
  | .str s => s.toInt?
  | .blank => none

/-- One raw spreadsheet row, before `load_data` normalization.  Optional
fields model nullable (`NaN`-able) columns. -/
structure RawRow where
  id : Int
  country : Option String
  region : Option String
  year : Int
  startyear : Option Int
  startmonth : Option Int
  startday : Option Int
  location : Option String
  participants : Cell
  participants_category : Option String
  protesterdemand1 : Option String
  stateresponse1 : Option String
  protesterviolence : Option Int
  protesteridentity : Option String
deriving DecidableEq, Repr

/-- One normalized row, as produced by `load_data`. -/
structure Row where
  id : Int
  country : Option String
  region : Option String
  year : Int
  startyear : Int
  startmonth : Int
  startday : Int
  start_date : Option Date
  location : Option String
  participants : Cell
  participants_numeric : Option Int
  participants_category : Option String
  protesterdemand1 : Option String
  stateresponse1 : Option String
  protesterviolence : Int
  violence_label : Option String
  protesteridentity : Option String
deriving DecidableEq, Repr

/-- `.map({0: "Peaceful", 1: "Violent"})` on the cleaned violence column:
values outside the dict map to missing. -/
def violenceLabel (v : Int) : Option String :=
  if v == 0 then some "Peaceful"
  else if v == 1 then some "Violent"
  else none

/-- Per-row normalization performed by `load_data`:
`startmonth`/`startday` `fillna(1)`, `startyear` `fillna(year)`,
`start_date` from the defaulted parts with coerced errors,
`participants_numeric` by coerced numeric parse,
`protesterviolence` `fillna(0)` and `violence_label` mapped from it. -/
def normalizeRow (r : RawRow) : Row :=
  let sm := r.startmonth.getD 1
  let sd := r.startday.getD 1
  let sy := r.startyear.getD r.year
  let pv := r.protesterviolence.getD 0
  { id := r.id
    country := r.country
    region := r.region
    year := r.year
    startyear := sy
    startmonth := sm
    startday := sd
    start_date := mkDate sy sm sd
    location := r.location
    participants := r.participants
    participants_numeric := toNumeric r.participants
    participants_category := r.participants_category
    protesterdemand1 := r.protesterdemand1
    stateresponse1 := r.stateresponse1
    protesterviolence := pv
    violence_label := violenceLabel pv
    protesteridentity := r.protesteridentity }

/-- Error raised when the spreadsheet cannot be loaded. -/
inductive DataLoadError where
  | fileMissing
  | unparseable
deriving DecidableEq, Repr

/-- The spreadsheet file as seen by `pd.read_excel`: missing on disk,
present but not parseable as a spreadsheet, or parsed into raw rows. -/
inductive ExcelFile where
  | missing
  | malformed
  | parsed (rows : List RawRow)
deriving DecidableEq

/-- `pd.read_excel(path)`: raises (modelled as `Except.error`) when the
file is missing or malformed, otherwise yields the raw rows. -/
def read_excel : ExcelFile → Except DataLoadError (List RawRow)
  | .missing => .error .fileMissing
  | .malformed => .error .unparseable
  | .parsed rows => .ok rows

/-- `load_data`: read the spreadsheet, then apply the column
normalizations to every row.  A read failure propagates; there is no
partial result. -/
def load_data (f : ExcelFile) : Except DataLoadError (List Row) := do
  let rows ← read_excel f
  return rows.map normalizeRow

/-- The sidebar violence radio: "All", "Peaceful only", "Violent only". -/
inductive ViolenceOpt where
  | all
  | peacefulOnly
  | violentOnly
deriving DecidableEq, Repr

/-- The sidebar filter selections fed to the mask. -/
structure Constraints where
  yearLo : Int
  yearHi : Int
  regions : List String
  countries : List String
  demands : List String
  responses : List String
  violence : ViolenceOpt
deriving DecidableEq, Repr

/-- `series.isin(values)` on a nullable string column: a missing value is
in no selection. -/
def optIsin (v : Option String) (sel : List String) : Bool :=
  match v with
  | none => false
  | some s => sel.contains s

/-- The boolean mask built from the year range, region, country, demand
and response filters (`mask` in the source, before the violence clause):
demand and response pass nulls through via `| .isna()`. -/
def baseMask (c : Constraints) (r : Row) : Bool :=
  (c.yearLo ≤ r.year && r.year ≤ c.yearHi)
  && optIsin r.region c.regions
  && optIsin r.country c.countries
  && (optIsin r.protesterdemand1 c.demands || r.protesterdemand1.isNone)
  && (optIsin r.stateresponse1 c.responses || r.stateresponse1.isNone)

/-- The full row mask: the base mask, strengthened by the violence radio
(`mask &= df["protesterviolence"] == 0` / `== 1`). -/
def mask (c : Constraints) (r : Row) : Bool :=
  match c.violence with
  | .all => baseMask c r
  | .peacefulOnly => baseMask c r && r.protesterviolence == 0
  | .violentOnly => baseMask c r && r.protesterviolence == 1

/-- `filtered = df[mask]`: the rows of the table satisfying the mask. -/
def filterTable (tbl : List Row) (c : Constraints) : List Row :=
  tbl.filter (mask c)

/-- The violence clause of the filter contract, as a proposition. -/
def violenceOk (c : Constraints) (r : Row) : Prop :=
  match c.violence with
  | .all => True
  | .peacefulOnly => r.protesterviolence = 0
  | .violentOnly => r.protesterviolence = 1

instance (c : Constraints) (r : Row) : Decidable (violenceOk c r) := by
  unfold violenceOk
  cases c.violence <;> infer_instance

/-- Membership characterization of the filter: a row is in `filterTable`
iff it is in the table and satisfies each constraint clause. -/
theorem mem_filterTable_iff (tbl : List Row) (c : Constraints) (r : Row) :
    r ∈ filterTable tbl c ↔
      r ∈ tbl ∧ c.yearLo ≤ r.year ∧ r.year ≤ c.yearHi ∧
      (∃ g, r.region = some g ∧ g ∈ c.regions) ∧
      (∃ k, r.country = some k ∧ k ∈ c.countries) ∧
      ((∃ d, r.protesterdemand1 = some d ∧ d ∈ c.demands) ∨
        r.protesterdemand1 = none) ∧
      ((∃ s, r.stateresponse1 = some s ∧ s ∈ c.responses) ∨
        r.stateresponse1 = none) ∧
      violenceOk c r := by
  have hopt : ∀ (v : Option String) (sel : List String),
      optIsin v sel = true ↔ ∃ s, v = some s ∧ s ∈ sel := by
    intro v sel
    cases v with
    | none => simp [optIsin]
    | some s => simp [optIsin]
  have hbase : ∀ r : Row, baseMask c r = true ↔
      (c.yearLo ≤ r.year ∧ r.year ≤ c.yearHi ∧
        (∃ g, r.region = some g ∧ g ∈ c.regions) ∧
        (∃ k, r.country = some k ∧ k ∈ c.countries) ∧
        ((∃ d, r.protesterdemand1 = some d ∧ d ∈ c.demands) ∨
          r.protesterdemand1 = none) ∧
        ((∃ s, r.stateresponse1 = some s ∧ s ∈ c.responses) ∨
          r.stateresponse1 = none)) := by
    intro r
    simp only [baseMask, Bool.and_eq_true, Bool.or_eq_true, hopt,
      decide_eq_true_eq, Option.isNone_iff_eq_none, and_assoc]
  constructor
  · intro h
    rw [filterTable, List.mem_filter] at h
    obtain ⟨hmem, hmask⟩ := h
    refine ⟨hmem, ?_⟩
    cases hv : c.violence <;>
      simp only [mask, hv, Bool.and_eq_true, beq_iff_eq] at hmask
    · have := (hbase r).mp hmask
      exact ⟨this.1, this.2.1, this.2.2.1, this.2.2.2.1, this.2.2.2.2.1,
        this.2.2.2.2.2, by simp [violenceOk, hv]⟩
    · have h1 := (hbase r).mp hmask.1
      exact ⟨h1.1, h1.2.1, h1.2.2.1, h1.2.2.2.1, h1.2.2.2.2.1,
        h1.2.2.2.2.2, by simp [violenceOk, hv, hmask.2]⟩
    · have h1 := (hbase r).mp hmask.1
      exact ⟨h1.1, h1.2.1, h1.2.2.1, h1.2.2.2.1, h1.2.2.2.2.1,
        h1.2.2.2.2.2, by simp [violenceOk, hv, hmask.2]⟩
  · rintro ⟨hmem, h1, h2, h3, h4, h5, h6, h7⟩
    rw [filterTable, List.mem_filter]
    refine ⟨hmem, ?_⟩
    have hb : baseMask c r = true := (hbase r).mpr ⟨h1, h2, h3, h4, h5, h6⟩
    cases hv : c.violence <;>
      simp only [violenceOk, hv] at h7 <;>
      simp [mask, hv, hb, h7]

/-- A row whose region or country is missing never passes the mask. -/
theorem mask_false_of_missing (c : Constraints) (r : Row)
    (h : r.region = none ∨ r.country = none) : mask c r = false := by
  have hb : baseMask c r = false := by
    rcases h with h | h <;>
      simp [baseMask, h, optIsin]
  cases hv : c.violence <;> simp [mask, hv, hb]

/-! ### KPI row -/

/-- `len(filtered)` — the Total Protests KPI. -/
def totalProtests (t : List Row) : Nat := t.length

/-- `series.nunique()` on a nullable column: distinct non-null values. -/
def nunique (l : List (Option String)) : Nat := (l.filterMap id).dedup.length

/-- `filtered["country"].nunique()` — the Countries KPI. -/
def countriesKPI (t : List Row) : Nat := nunique (t.map (·.country))

/-- `filtered["region"].nunique()` — the Regions KPI. -/
def regionsKPI (t : List Row) : Nat := nunique (t.map (·.region))

/-- `filtered["protesterviolence"].sum()`. -/
def violentSum (t : List Row) : Int := (t.map (·.protesterviolence)).sum

/-- The Violent % KPI: `sum/len*100` guarded by `if len(filtered) else 0`. -/
def violent_pct (t : List Row) : ℚ :=
  if t.length ≠ 0 then (violentSum t : ℚ) / (t.length : ℚ) * 100 else 0

/-- `filtered["year"].min()` (junk value on an empty table; the caller
guards emptiness). -/
def minYear (t : List Row) : Int :=
  match t.map (·.year) with
  | [] => 0
  | y :: ys => ys.foldl min y

/-- `filtered["year"].max()` (junk value on an empty table; the caller
guards emptiness). -/
def maxYear (t : List Row) : Int :=
  match t.map (·.year) with
  | [] => 0
  | y :: ys => ys.foldl max y

/-- The Year Span KPI: `min–max` when the filtered set is nonempty,
otherwise "N/A" (modelled as `none`). -/
def yearSpanKPI (t : List Row) : Option (Int × Int) :=
  if t.length ≠ 0 then some (minYear t, maxYear t) else none

/-! ### Violence rate over time (`viol_trend`) -/

/-- `.round(1)`: round a rate to one decimal place. -/
def round1 (q : ℚ) : ℚ := (round (q * 10) : ℚ) / 10

/-- The distinct group keys of `groupby("year")`, in ascending order. -/
def trendYears (t : List Row) : List Int :=
  List.insertionSort (· ≤ ·) ((t.map (·.year)).dedup)

/-- The aggregates of one `groupby("year")` group:
`total = size`, `violent = sum`, and the `violence_rate` column
`(violent / total * 100).round(1)`. -/
def trendEntry (t : List Row) (y : Int) : Nat × Int × ℚ :=
  let grp := t.filter (fun r => r.year == y)
  let total : Nat := grp.length
  let violent : Int := (grp.map (·.protesterviolence)).sum
  (total, violent, round1 ((violent : ℚ) / (total : ℚ) * 100))

/-- `filtered.groupby("year").agg(total=size, violent=sum)` followed by
the `violence_rate` column: one entry `(year, (total, violent, rate))`
per year present in the filtered set. -/
def viol_trend (t : List Row) : List (Int × Nat × Int × ℚ) :=
  (trendYears t).map (fun y => (y, trendEntry t y))

/-- The `violence_rate` value reported for a year, `none` when the year
has no entry in `viol_trend`. -/
def violTrendRate (t : List Row) (y : Int) : Option ℚ :=
  ((viol_trend t).find? (fun e => e.1 == y)).map (fun e => e.2.2.2)

/-- Rows of a year as counted by the trend aggregation. -/
def totalIn (t : List Row) (y : Int) : Nat :=
  t.countP (fun r => r.year == y)

/-- Violent rows of a year (rows with `protesterviolence == 1`). -/
def violentRowsIn (t : List Row) (y : Int) : Nat :=
  t.countP (fun r => r.year == y && r.protesterviolence == 1)

/-! ### Country × Year heatmap -/

/-- `series.dropna()`: the non-null values of a nullable column. -/
def dropNA (l : List (Option String)) : List String := l.filterMap id

/-- Count-descending order on (value, count) pairs, as produced by
`value_counts()`. -/
def byCountDesc (a b : String × Nat) : Prop := b.2 ≤ a.2

instance : DecidableRel byCountDesc := fun a b => by
  unfold byCountDesc; infer_instance

instance : IsTotal (String × Nat) byCountDesc :=
  ⟨fun a b => le_total b.2 a.2⟩

instance : IsTrans (String × Nat) byCountDesc :=
  ⟨fun _ _ _ h1 h2 => le_trans h2 h1⟩

/-- Row-total-ascending order on (country, total) pairs, as used by
`sort_values(ascending=True)` on the pivot's row sums. -/
def byTotalAsc (a b : String × Nat) : Prop := a.2 ≤ b.2

instance : DecidableRel byTotalAsc := fun a b => by
  unfold byTotalAsc; infer_instance

instance : IsTotal (String × Nat) byTotalAsc :=
  ⟨fun a b => le_total a.2 b.2⟩

instance : IsTrans (String × Nat) byTotalAsc :=
  ⟨fun _ _ _ h1 h2 => le_trans h1 h2⟩

/-- `series.value_counts()`: distinct non-null values with their counts,
sorted by count descending (stable on ties). -/
def valueCounts (l : List (Option String)) : List (String × Nat) :=
  let vs := dropNA l
  List.insertionSort byCountDesc
    (vs.dedup.map (fun v => (v, vs.count v)))

/-- Number of filtered rows of a given country. -/
def countryCount (t : List Row) (c : String) : Nat :=
  t.countP (fun r => r.country == some c)

/-- `filtered["country"].value_counts().head(top_n).index.tolist()`. -/
def top_countries_list (t : List Row) (n : Nat) : List String :=
  ((valueCounts (t.map (·.country))).take n).map (·.1)

/-- `filtered[filtered["country"].isin(top_countries_list)]`. -/
def heatRestricted (t : List Row) (n : Nat) : List Row :=
  t.filter (fun r => optIsin r.country (top_countries_list t n))

/-- Lexicographic comparison of character lists. -/
def charListLe : List Char → List Char → Bool
  | [], _ => true
  | _ :: _, [] => false
  | a :: as, b :: bs =>
    if a < b then true else if b < a then false else charListLe as bs

/-- Lexicographic comparison of strings over their characters. -/
def strLe (a b : String) : Bool := charListLe a.data b.data

/-- Lexicographic order on (country, year) group keys. -/
def keyLexCY (a b : String × Int) : Prop :=
  (a.1 = b.1 ∧ a.2 ≤ b.2) ∨ (a.1 ≠ b.1 ∧ strLe a.1 b.1 = true)

instance : DecidableRel keyLexCY := fun a b => by
  unfold keyLexCY; infer_instance

/-- The distinct (country, year) keys of
`groupby(["country", "year"])` over the restricted rows (null keys
dropped), in groupby's sorted order. -/
def heatKeys (t : List Row) (n : Nat) : List (String × Int) :=
  List.insertionSort keyLexCY
    (((heatRestricted t n).filterMap
        (fun r => r.country.map (fun c => (c, r.year)))).dedup)

/-- `heat_df`: the (country, year) group sizes. -/
def heat_df (t : List Row) (n : Nat) : List ((String × Int) × Nat) :=
  (heatKeys t n).map (fun k =>
    (k, (heatRestricted t n).countP
      (fun r => r.country == some k.1 && r.year == k.2)))

/-- A cell of `heat_pivot` before zero-filling: `none` models the `NaN`
of a (country, year) pair absent from `heat_df`. -/
def heatLookup (t : List Row) (n : Nat) (c : String) (y : Int) : Option Nat :=
  ((heat_df t n).find? (fun e => e.1.1 == c && e.1.2 == y)).map (·.2)

/-- A cell of `heat_pivot` after `.fillna(0)`. -/
def heatCell (t : List Row) (n : Nat) (c : String) (y : Int) : Nat :=
  (heatLookup t n c y).getD 0

/-- The year columns of `heat_pivot`, ascending. -/
def heatCols (t : List Row) (n : Nat) : List Int :=
  List.insertionSort (· ≤ ·) (((heatRestricted t n).map (·.year)).dedup)

/-- `heat_pivot.sum(axis=1)` for one row: the row's cells summed across
the year columns. -/
def heatRowTotal (t : List Row) (n : Nat) (c : String) : Nat :=
  ((heatCols t n).map (heatCell t n c)).sum

/-- The row labels of `heat_pivot` after
`.loc[heat_pivot.sum(axis=1).sort_values(ascending=True).index]`:
the top-N countries reordered ascending by row total. -/
def heat_pivot_rows (t : List Row) (n : Nat) : List String :=
  (List.insertionSort byTotalAsc
    ((top_countries_list t n).map (fun c => (c, heatRowTotal t n c)))).map (·.1)

/-! ### Demand × Region stacked bar -/

/-- Lexicographic order on (region, demand) group keys. -/
def keyLexRD (a b : String × String) : Prop :=
  (a.1 = b.1 ∧ strLe a.2 b.2 = true) ∨ (a.1 ≠ b.1 ∧ strLe a.1 b.1 = true)

instance : DecidableRel keyLexRD := fun a b => by
  unfold keyLexRD; infer_instance

/-- `filtered.dropna(subset=["protesterdemand1"])`. -/
def demandKept (t : List Row) : List Row :=
  t.filter (fun r => !r.protesterdemand1.isNone)

/-- The distinct (region, demand) keys of
`groupby(["region", "protesterdemand1"])` over the kept rows (null keys
dropped), in groupby's sorted order. -/
def demandRegionKeys (t : List Row) : List (String × String) :=
  List.insertionSort keyLexRD
    (((demandKept t).filterMap (fun r =>
        r.region.bind (fun g =>
          r.protesterdemand1.map (fun d => (g, d))))).dedup)

/-- `demand_region_df`: the (region, demand) group sizes. -/
def demand_region_df (t : List Row) : List ((String × String) × Nat) :=
  (demandRegionKeys t).map (fun k =>
    (k, (demandKept t).countP
      (fun r => r.region == some k.1 && r.protesterdemand1 == some k.2)))

/-- The count charted for a (region, demand) pair; a pair with no group
contributes nothing (count 0). -/
def demandRegionCount (t : List Row) (g d : String) : Nat :=
  (((demand_region_df t).find?
      (fun e => e.1.1 == g && e.1.2 == d)).map (·.2)).getD 0

/-! ### Counting helpers -/

/-- Sums of pointwise-added maps split. -/
theorem sum_map_add_aux {κ : Type} (l : List κ) (f g : κ → Nat) :
    (l.map (fun k => f k + g k)).sum = (l.map f).sum + (l.map g).sum := by
  induction l with
  | nil => simp
  | cons a tl ih => simp only [List.map_cons, List.sum_cons, ih]; omega

/-- An indicator summed over a list missing its point vanishes. -/
theorem sum_indicator_zero {κ : Type} [DecidableEq κ] (ks : List κ) (k0 : κ)
    (h : k0 ∉ ks) :
    (ks.map (fun k => if k0 = k then (1 : Nat) else 0)).sum = 0 := by
  induction ks with
  | nil => simp
  | cons a tl ih =>
    simp only [List.mem_cons, not_or] at h
    simp [h.1, ih h.2]

/-- An indicator summed over a duplicate-free list containing its point
is one. -/
theorem sum_indicator_one {κ : Type} [DecidableEq κ] (ks : List κ) (k0 : κ)
    (hnd : ks.Nodup) (hmem : k0 ∈ ks) :
    (ks.map (fun k => if k0 = k then (1 : Nat) else 0)).sum = 1 := by
  induction ks with
  | nil => cases hmem
  | cons a tl ih =>
    rw [List.nodup_cons] at hnd
    rcases List.mem_cons.mp hmem with h | h
    · subst h
      simp [sum_indicator_zero tl k0 hnd.1]
    · have ha : k0 ≠ a := by
        rintro rfl
        exact hnd.1 h
      simp [ha, ih hnd.2 h]

/-- Group counts summed over a duplicate-free key list covering the rows
that satisfy `p` give the total count of `p`. -/
theorem sum_countP_partition {κ : Type} [DecidableEq κ] (l : List Row)
    (p : Row → Bool) (keyf : Row → κ) (q : κ → Row → Bool) (ks : List κ)
    (hnd : ks.Nodup)
    (hq : ∀ k r, q k r = (p r && decide (keyf r = k)))
    (hcov : ∀ r ∈ l, p r = true → keyf r ∈ ks) :
    (ks.map (fun k => l.countP (q k))).sum = l.countP p := by
  induction l with
  | nil => simp
  | cons a tl ih =>
    have hcov' : ∀ r ∈ tl, p r = true → keyf r ∈ ks :=
      fun r hr => hcov r (List.mem_cons_of_mem a hr)
    have hmap : ks.map (fun k => List.countP (q k) (a :: tl)) =
        ks.map (fun k =>
          List.countP (q k) tl + if q k a = true then 1 else 0) := by
      apply List.map_congr_left
      intro k _
      rw [List.countP_cons]
    have h2 : (ks.map (fun k => if q k a = true then (1 : Nat) else 0)).sum =
        if p a = true then 1 else 0 := by
      by_cases hpa : p a = true
      · have hm : ks.map (fun k => if q k a = true then (1 : Nat) else 0) =
            ks.map (fun k => if keyf a = k then 1 else 0) := by
          apply List.map_congr_left
          intro k _
          simp [hq, hpa]
        rw [hm,
          sum_indicator_one ks (keyf a) hnd (hcov a (List.mem_cons_self a tl) hpa),
          if_pos hpa]
      · have hm : ks.map (fun k => if q k a = true then (1 : Nat) else 0) =
            ks.map (fun _ => 0) := by
          apply List.map_congr_left
          intro k _
          simp [hq, hpa]
        rw [hm]
        simp [hpa]
    rw [hmap, sum_map_add_aux, ih hcov', List.countP_cons, h2]

/-- Looking up a present key in an association list built by mapping a
value function over a key list. -/
theorem find?_keyed_of_mem {κ β : Type} (ks : List κ) (f : κ → β)
    (pe : κ × β → Bool) (k : κ)
    (hp : ∀ k0 b, pe (k0, b) = true ↔ k0 = k) (hmem : k ∈ ks) :
    ((ks.map (fun k0 => (k0, f k0))).find? pe) = some (k, f k) := by
  induction ks with
  | nil => cases hmem
  | cons a tl ih =>
    by_cases h : a = k
    · subst h
      have hpa : pe (a, f a) = true := (hp a (f a)).mpr rfl
      simp [List.find?_cons, hpa]
    · have hpa : pe (a, f a) = false := by
        cases hpav : pe (a, f a)
        · rfl
        · exact absurd ((hp a (f a)).mp hpav) h
      have hmem' : k ∈ tl := by
        rcases List.mem_cons.mp hmem with h' | h'
        · exact absurd h'.symm h
        · exact h'
      simp [List.find?_cons, hpa, ih hmem']

/-- Looking up an absent key in an association list built by mapping a
value function over a key list. -/
theorem find?_keyed_of_not_mem {κ β : Type} (ks : List κ) (f : κ → β)
    (pe : κ × β → Bool) (k : κ)
    (hp : ∀ k0 b, pe (k0, b) = true → k0 = k) (hmem : k ∉ ks) :
    ((ks.map (fun k0 => (k0, f k0))).find? pe) = none := by
  induction ks with
  | nil => simp
  | cons a tl ih =>
    have ha : a ≠ k := fun he => hmem (he ▸ List.mem_cons_self a tl)
    have hpa : pe (a, f a) = false := by
      cases hpav : pe (a, f a)
      · rfl
      · exact absurd (hp a (f a) hpav) ha
    have hmem' : k ∉ tl := fun h' => hmem (List.mem_cons_of_mem a h')
    simp [List.find?_cons, hpa, ih hmem']

/-- Counting a value in a de-nulled column equals counting rows whose
cell holds that value. -/
theorem count_dropNA (l : List Row) (proj : Row → Option String)
    (c : String) :
    (dropNA (l.map proj)).count c = l.countP (fun r => proj r == some c) := by
  induction l with
  | nil => simp [dropNA]
  | cons a tl ih =>
    cases ha : proj a with
    | none =>
      simp [dropNA, List.countP_cons, ha, List.filterMap_cons] at ih ⊢
      exact ih
    | some v =>
      by_cases hv : v = c
      · subst hv
        simp [dropNA, List.filterMap_cons, ha, List.count_cons,
          List.countP_cons] at ih ⊢
        omega
      · simp [dropNA, List.filterMap_cons, ha, List.count_cons,
          List.countP_cons, hv] at ih ⊢
        exact ih

/-- Over rows whose violence flag is 0 or 1, the column sum equals the
number of rows flagged 1. -/
theorem violentSum_eq_count (l : List Row)
    (h : ∀ r ∈ l, r.protesterviolence = 0 ∨ r.protesterviolence = 1) :
    (l.map (·.protesterviolence)).sum =
      (l.countP (fun r => r.protesterviolence == 1) : Int) := by
  induction l with
  | nil => simp
  | cons a tl ih =>
    have htl := ih (fun r hr => h r (List.mem_cons_of_mem a hr))
    rcases h a (List.mem_cons_self a tl) with h0 | h1
    · simp [List.countP_cons, h0, htl]
    · simp [List.countP_cons, h1, htl]
      ring

/-! ### Violence-trend lemmas -/

/-- The trend's year keys are duplicate-free. -/
theorem nodup_trendYears (t : List Row) : (trendYears t).Nodup :=
  ((List.perm_insertionSort _ _).nodup_iff).mpr (List.nodup_dedup _)

/-- A year is a trend key iff the filtered set has a row in it. -/
theorem mem_trendYears (t : List Row) (y : Int) :
    y ∈ trendYears t ↔ 0 < totalIn t y := by
  simp [trendYears, List.mem_insertionSort, List.mem_dedup, List.mem_map,
    totalIn, List.countP_pos_iff, beq_iff_eq]

/-- The reported rate is the entry of the year when present, else
nothing. -/
theorem violTrendRate_eq (t : List Row) (y : Int) :
    violTrendRate t y =
      if y ∈ trendYears t then some (trendEntry t y).2.2 else none := by
  by_cases h : y ∈ trendYears t
  · rw [violTrendRate, viol_trend,
      find?_keyed_of_mem (trendYears t) (trendEntry t)
        (fun e => e.1 == y) y (fun k0 b => by simp) h]
    simp [h]
  · rw [violTrendRate, viol_trend,
      find?_keyed_of_not_mem (trendYears t) (trendEntry t)
        (fun e => e.1 == y) y (fun k0 b hb => by simpa using hb) h]
    simp [h]

/-- With a 0/1 violence column, a year's rate is the rounded percentage
of its violent rows. -/
theorem trendEntry_rate (t : List Row) (y : Int)
    (hpv : ∀ r ∈ t, r.protesterviolence = 0 ∨ r.protesterviolence = 1) :
    (trendEntry t y).2.2 =
      round1 ((violentRowsIn t y : ℚ) / (totalIn t y : ℚ) * 100) := by
  unfold trendEntry violentRowsIn totalIn
  have hlen : (t.filter (fun r => r.year == y)).length =
      t.countP (fun r => r.year == y) :=
    (List.countP_eq_length_filter _ _).symm
  have hsum : ((t.filter (fun r => r.year == y)).map
        (·.protesterviolence)).sum =
      ((t.filter (fun r => r.year == y)).countP
        (fun r => r.protesterviolence == 1) : Int) :=
    violentSum_eq_count _ (fun r hr => hpv r (List.mem_filter.mp hr).1)
  have hcnt : (t.filter (fun r => r.year == y)).countP
        (fun r => r.protesterviolence == 1) =
      t.countP (fun r => r.year == y && r.protesterviolence == 1) := by
    rw [List.countP_filter]
    exact List.countP_congr (fun r _ => by simp [Bool.and_comm])
  simp only [hlen, hsum, hcnt]
  push_cast
  rfl

/-! ### Heatmap lemmas -/

/-- The heatmap group keys are duplicate-free. -/
theorem nodup_heatKeys (t : List Row) (n : Nat) : (heatKeys t n).Nodup :=
  ((List.perm_insertionSort _ _).nodup_iff).mpr (List.nodup_dedup _)

/-- A (country, year) pair is a heatmap group key iff the restricted set
has a matching row. -/
theorem mem_heatKeys (t : List Row) (n : Nat) (c : String) (y : Int) :
    (c, y) ∈ heatKeys t n ↔
      0 < (heatRestricted t n).countP
        (fun r => r.country == some c && r.year == y) := by
  simp only [heatKeys, List.mem_insertionSort, List.mem_dedup,
    List.mem_filterMap, List.countP_pos_iff, Option.map_eq_some',
    Prod.mk.injEq, Bool.and_eq_true, beq_iff_eq]
  constructor
  · rintro ⟨r, hr, c0, hc0, rfl, rfl⟩
    exact ⟨r, hr, hc0, rfl⟩
  · rintro ⟨r, hr, hc, hy⟩
    exact ⟨r, hr, c, hc, rfl, hy⟩

/-- The year columns of the pivot are duplicate-free. -/
theorem nodup_heatCols (t : List Row) (n : Nat) : (heatCols t n).Nodup :=
  ((List.perm_insertionSort _ _).nodup_iff).mpr (List.nodup_dedup _)

/-- A year is a pivot column iff some restricted row has it. -/
theorem mem_heatCols (t : List Row) (n : Nat) (y : Int) :
    y ∈ heatCols t n ↔ ∃ r ∈ heatRestricted t n, r.year = y := by
  simp [heatCols, List.mem_insertionSort, List.mem_dedup, List.mem_map]

/-- A pivot cell after zero-fill is the count of matching restricted
rows; pairs with no rows read 0. -/
theorem heatCell_eq (t : List Row) (n : Nat) (c : String) (y : Int) :
    heatCell t n c y = (heatRestricted t n).countP
      (fun r => r.country == some c && r.year == y) := by
  unfold heatCell heatLookup heat_df
  by_cases h : (c, y) ∈ heatKeys t n
  · rw [find?_keyed_of_mem (heatKeys t n)
      (fun k => (heatRestricted t n).countP
        (fun r => r.country == some k.1 && r.year == k.2))
      (fun e => e.1.1 == c && e.1.2 == y) (c, y)
      (fun k0 b => by simp [Prod.ext_iff]) h]
    simp
  · rw [find?_keyed_of_not_mem (heatKeys t n)
      (fun k => (heatRestricted t n).countP
        (fun r => r.country == some k.1 && r.year == k.2))
      (fun e => e.1.1 == c && e.1.2 == y) (c, y)
      (fun k0 b hb => by simpa [Prod.ext_iff] using hb) h]
    have h0 : (heatRestricted t n).countP
        (fun r => r.country == some c && r.year == y) = 0 := by
      by_contra hne
      exact h ((mem_heatKeys t n c y).mpr (Nat.pos_of_ne_zero hne))
    simp [h0]

/-- Boolean equality on integers agrees with decidable equality. -/
theorem beq_int_decide (a b : Int) : (a == b) = decide (a = b) := by
  by_cases h : a = b <;> simp [h]

/-- `value_counts` entries pair a distinct value with its count. -/
theorem mem_valueCounts (l : List (Option String)) (pr : String × Nat)
    (h : pr ∈ valueCounts l) :
    pr.1 ∈ (dropNA l).dedup ∧ pr.2 = (dropNA l).count pr.1 := by
  simp only [valueCounts, List.mem_insertionSort, List.mem_map] at h
  obtain ⟨v, hv, rfl⟩ := h
  exact ⟨hv, rfl⟩

/-- Every distinct value owns an entry of `value_counts`. -/
theorem pair_mem_valueCounts (l : List (Option String)) (c : String)
    (h : c ∈ (dropNA l).dedup) :
    (c, (dropNA l).count c) ∈ valueCounts l := by
  simp only [valueCounts, List.mem_insertionSort, List.mem_map]
  exact ⟨c, h, rfl⟩

/-- `value_counts` output is sorted by count descending. -/
theorem sorted_valueCounts (l : List (Option String)) :
    List.Sorted byCountDesc (valueCounts l) :=
  List.sorted_insertionSort _ _

/-- The length of `value_counts` is the number of distinct values. -/
theorem length_valueCounts (l : List (Option String)) :
    (valueCounts l).length = (dropNA l).dedup.length := by
  rw [valueCounts]
  rw [(List.perm_insertionSort _ _).length_eq, List.length_map]

/-- A top-list country's count dominates the count of any country left
out of the top list. -/
theorem top_countries_ge (t : List Row) (n : Nat) (c c' : String)
    (hc : c ∈ top_countries_list t n)
    (hc' : c' ∈ dropNA (t.map (·.country)))
    (hc'n : c' ∉ top_countries_list t n) :
    countryCount t c' ≤ countryCount t c := by
  rw [top_countries_list] at hc
  obtain ⟨pr, hprmem, hpr1⟩ := List.mem_map.mp hc
  have hprL : pr ∈ valueCounts (t.map (·.country)) :=
    List.mem_of_mem_take hprmem
  have hc'd : c' ∈ (dropNA (t.map (·.country))).dedup := List.mem_dedup.mpr hc'
  have hpair' : (c', (dropNA (t.map (·.country))).count c') ∈
      valueCounts (t.map (·.country)) :=
    pair_mem_valueCounts _ _ hc'd
  have hnotin : (c', (dropNA (t.map (·.country))).count c') ∉
      (valueCounts (t.map (·.country))).take n := by
    intro hmem
    apply hc'n
    simp only [top_countries_list, List.mem_map]
    exact ⟨_, hmem, rfl⟩
  have hdrop : (c', (dropNA (t.map (·.country))).count c') ∈
      (valueCounts (t.map (·.country))).drop n := by
    have hsplit := List.take_append_drop n (valueCounts (t.map (·.country)))
    rcases List.mem_append.mp (by rw [hsplit]; exact hpair') with h | h
    · exact absurd h hnotin
    · exact h
  have hrel : byCountDesc pr (c', (dropNA (t.map (·.country))).count c') := by
    have hsorted : List.Sorted byCountDesc (valueCounts (t.map (·.country))) :=
      sorted_valueCounts _
    rw [← List.take_append_drop n (valueCounts (t.map (·.country))),
      List.Sorted, List.pairwise_append] at hsorted
    exact hsorted.2.2 pr hprmem _ hdrop
  have hcnt : pr.2 = (dropNA (t.map (·.country))).count pr.1 :=
    (mem_valueCounts _ pr hprL).2
  have hcc : ∀ c0 : String,
      (dropNA (t.map (·.country))).count c0 = countryCount t c0 :=
    fun c0 => count_dropNA t (·.country) c0
  have := hrel
  rw [byCountDesc] at this
  calc countryCount t c' = (dropNA (t.map (·.country))).count c' :=
        (hcc c').symm
    _ ≤ pr.2 := this
    _ = (dropNA (t.map (·.country))).count pr.1 := hcnt
    _ = countryCount t pr.1 := hcc pr.1
    _ = countryCount t c := by rw [hpr1]

/-- The pivot's row labels are a permutation of the top-N list. -/
theorem heat_pivot_rows_perm (t : List Row) (n : Nat) :
    (heat_pivot_rows t n).Perm (top_countries_list t n) := by
  unfold heat_pivot_rows
  have hperm := (List.perm_insertionSort byTotalAsc
    ((top_countries_list t n).map (fun c => (c, heatRowTotal t n c)))).map
    (fun p : String × Nat => p.1)
  simpa [List.map_map, Function.comp_def] using hperm

/-- The pivot's rows appear in ascending order of row total. -/
theorem heat_pivot_rows_sorted (t : List Row) (n : Nat) :
    List.Sorted (· ≤ ·) ((heat_pivot_rows t n).map (heatRowTotal t n)) := by
  unfold heat_pivot_rows
  have hmem : ∀ p ∈ List.insertionSort byTotalAsc
      ((top_countries_list t n).map (fun c => (c, heatRowTotal t n c))),
      heatRowTotal t n p.1 = p.2 := by
    intro p hp
    have hp' := (List.mem_insertionSort _).mp hp
    obtain ⟨c, hc, rfl⟩ := List.mem_map.mp hp'
    rfl
  rw [List.map_map]
  have hrw : (List.insertionSort byTotalAsc
      ((top_countries_list t n).map (fun c => (c, heatRowTotal t n c)))).map
        (heatRowTotal t n ∘ (fun p : String × Nat => p.1)) =
      (List.insertionSort byTotalAsc
      ((top_countries_list t n).map (fun c => (c, heatRowTotal t n c)))).map
        (fun p : String × Nat => p.2) :=
    List.map_congr_left (fun p hp => hmem p hp)
  rw [hrw, List.Sorted, List.pairwise_map]
  have hs := List.sorted_insertionSort byTotalAsc
    ((top_countries_list t n).map (fun c => (c, heatRowTotal t n c)))
  exact hs

/-- Counting with a predicate confined to top-list countries is the same
over the restricted and the full filtered set. -/
theorem countP_heatRestricted_eq (t : List Row) (n : Nat) (q : Row → Bool)
    (hq : ∀ r, q r = true → optIsin r.country (top_countries_list t n) = true) :
    (heatRestricted t n).countP q = t.countP q := by
  unfold heatRestricted
  rw [List.countP_filter]
  apply List.countP_congr
  intro r _
  simp only [Bool.and_eq_true]
  exact ⟨fun h => h.1, fun h => ⟨h, hq r h⟩⟩

/-- A top-list country's pivot row total is its count in the filtered
set. -/
theorem heatRowTotal_eq (t : List Row) (n : Nat) (c : String)
    (hc : c ∈ top_countries_list t n) :
    heatRowTotal t n c = countryCount t c := by
  unfold heatRowTotal
  have hcells : (heatCols t n).map (heatCell t n c) =
      (heatCols t n).map (fun y => (heatRestricted t n).countP
        (fun r => r.country == some c && r.year == y)) :=
    List.map_congr_left (fun y _ => heatCell_eq t n c y)
  rw [hcells]
  have hpart := sum_countP_partition (heatRestricted t n)
    (fun r => r.country == some c) (fun r => r.year)
    (fun y r => r.country == some c && r.year == y) (heatCols t n)
    (nodup_heatCols t n)
    (fun y r => by
      show (r.country == some c && r.year == y) =
        ((r.country == some c) && decide (r.year = y))
      rw [beq_int_decide])
    (fun r hr _ => (mem_heatCols t n r.year).mpr ⟨r, hr, rfl⟩)
  rw [hpart]
  rw [countP_heatRestricted_eq t n _ ?hin]
  · rfl
  case hin =>
    intro r hr
    have hc' : r.country = some c := by simpa using hr
    rw [hc', optIsin]
    simpa [List.elem_iff] using hc

/-! ### Demand-by-region lemmas -/

/-- The (region, demand) group keys are duplicate-free. -/
theorem nodup_demandRegionKeys (t : List Row) : (demandRegionKeys t).Nodup :=
  ((List.perm_insertionSort _ _).nodup_iff).mpr (List.nodup_dedup _)

/-- A (region, demand) pair is a group key iff some kept row matches. -/
theorem mem_demandRegionKeys (t : List Row) (g d : String) :
    (g, d) ∈ demandRegionKeys t ↔
      0 < (demandKept t).countP
        (fun r => r.region == some g && r.protesterdemand1 == some d) := by
  simp only [demandRegionKeys, List.mem_insertionSort, List.mem_dedup,
    List.mem_filterMap, List.countP_pos_iff, Option.bind_eq_some,
    Option.map_eq_some', Prod.mk.injEq, Bool.and_eq_true, beq_iff_eq]
  constructor
  · rintro ⟨r, hr, g0, hg0, d0, hd0, rfl, rfl⟩
    exact ⟨r, hr, hg0, hd0⟩
  · rintro ⟨r, hr, hg, hd⟩
    exact ⟨r, hr, g, hg, d, hd, rfl, rfl⟩

/-- Counting with a predicate confined to rows with a recorded demand is
the same over the kept rows and the full filtered set. -/
theorem demandKept_countP (t : List Row) (q : Row → Bool)
    (hq : ∀ r, q r = true → r.protesterdemand1.isNone = false) :
    (demandKept t).countP q = t.countP q := by
  unfold demandKept
  rw [List.countP_filter]
  apply List.countP_congr
  intro r _
  simp only [Bool.and_eq_true, Bool.not_eq_true']
  exact ⟨fun h => h.1, fun h => ⟨h, hq r h⟩⟩

/-- The charted count of a (region, demand) pair is the number of
filtered rows with exactly that region and demand. -/
theorem demandRegionCount_eq (t : List Row) (g d : String) :
    demandRegionCount t g d =
      t.countP (fun r =>
        r.region == some g && r.protesterdemand1 == some d) := by
  have hkept : (demandKept t).countP
        (fun r => r.region == some g && r.protesterdemand1 == some d) =
      t.countP (fun r =>
        r.region == some g && r.protesterdemand1 == some d) :=
    demandKept_countP t _ (fun r hr => by
      have hd : r.protesterdemand1 = some d := by
        simp only [Bool.and_eq_true, beq_iff_eq] at hr
        exact hr.2
      simp [hd])
  unfold demandRegionCount demand_region_df
  by_cases h : (g, d) ∈ demandRegionKeys t
  · rw [find?_keyed_of_mem (demandRegionKeys t)
      (fun k => (demandKept t).countP
        (fun r => r.region == some k.1 && r.protesterdemand1 == some k.2))
      (fun e => e.1.1 == g && e.1.2 == d) (g, d)
      (fun k0 b => by simp [Prod.ext_iff]) h]
    simpa using hkept
  · rw [find?_keyed_of_not_mem (demandRegionKeys t)
      (fun k => (demandKept t).countP
        (fun r => r.region == some k.1 && r.protesterdemand1 == some k.2))
      (fun e => e.1.1 == g && e.1.2 == d) (g, d)
      (fun k0 b hb => by simpa [Prod.ext_iff] using hb) h]
    have h0 : (demandKept t).countP
        (fun r => r.region == some g && r.protesterdemand1 == some d) = 0 := by
      by_contra hne
      exact h ((mem_demandRegionKeys t g d).mpr (Nat.pos_of_ne_zero hne))
    rw [← hkept, h0]
    simp

/-- The group counts sum to the number of filtered rows with both a
recorded region and a recorded demand. -/
theorem demand_region_total (t : List Row) :
    ((demand_region_df t).map (·.2)).sum =
      t.countP (fun r => r.region.isSome && r.protesterdemand1.isSome) := by
  unfold demand_region_df
  rw [List.map_map]
  have hcomp : ((fun e : (String × String) × Nat => e.2) ∘
      (fun k => (k, (demandKept t).countP
        (fun r => r.region == some k.1 && r.protesterdemand1 == some k.2)))) =
      fun k => (demandKept t).countP
        (fun r => r.region == some k.1 && r.protesterdemand1 == some k.2) :=
    rfl
  rw [hcomp]
  have hpart := sum_countP_partition (demandKept t)
    (fun r => r.region.isSome && r.protesterdemand1.isSome)
    (fun r => (r.region.getD "", r.protesterdemand1.getD ""))
    (fun k r => r.region == some k.1 && r.protesterdemand1 == some k.2)
    (demandRegionKeys t) (nodup_demandRegionKeys t) ?hq ?hcov
  rw [hpart]
  exact demandKept_countP t _ (fun r hr => by
    simp only [Bool.and_eq_true] at hr
    cases hd : r.protesterdemand1
    · rw [hd] at hr
      simp at hr
    · simp [hd])
  case hq =>
    intro k r
    rw [Bool.eq_iff_iff]
    show (r.region == some k.1 && r.protesterdemand1 == some k.2) = true ↔
      ((r.region.isSome && r.protesterdemand1.isSome) &&
        decide ((r.region.getD "", r.protesterdemand1.getD "") = k)) = true
    simp only [Bool.and_eq_true, beq_iff_eq, decide_eq_true_eq]
    constructor
    · rintro ⟨h1, h2⟩
      rw [h1, h2]
      simp [Prod.ext_iff]
    · rintro ⟨⟨hg, hd⟩, hk⟩
      obtain ⟨g0, hg0⟩ := Option.isSome_iff_exists.mp hg
      obtain ⟨d0, hd0⟩ := Option.isSome_iff_exists.mp hd
      rw [hg0, hd0] at hk ⊢
      simp only [Option.getD_some] at hk
      rw [← hk]
      simp
  case hcov =>
    intro r hr hp
    simp only [Bool.and_eq_true] at hp
    obtain ⟨g0, hg0⟩ := Option.isSome_iff_exists.mp hp.1
    obtain ⟨d0, hd0⟩ := Option.isSome_iff_exists.mp hp.2
    show (r.region.getD "", r.protesterdemand1.getD "") ∈ demandRegionKeys t
    rw [hg0, hd0]
    simp only [Option.getD_some]
    rw [mem_demandRegionKeys]
    rw [List.countP_pos_iff]
    exact ⟨r, hr, by simp [hg0, hd0]⟩

/-- Validity condition of `mkDate`, spelled out. -/
theorem mkDate_eq_none_iff (y m d : Int) :
    mkDate y m d = none ↔
      ¬(1 ≤ m ∧ m ≤ 12 ∧ 1 ≤ d ∧ d ≤ daysInMonth y m) := by
  unfold mkDate
  by_cases h : 1 ≤ m ∧ m ≤ 12 ∧ 1 ≤ d ∧ d ≤ daysInMonth y m
  · rw [if_pos (by
      simp only [Bool.and_eq_true, decide_eq_true_eq]
      exact ⟨⟨⟨h.1, h.2.1⟩, h.2.2.1⟩, h.2.2.2⟩)]
    simp [h]
  · rw [if_neg (by
      intro hc
      simp only [Bool.and_eq_true, decide_eq_true_eq] at hc
      exact h ⟨hc.1.1.1, hc.1.1.2, hc.1.2, hc.2⟩)]
    simp [h]

/-! ### Sample data used by the concrete witnesses -/

/-- A sample normalized row. -/
def sampleRow : Row :=
  { id := 1
    country := some "Canada"
    region := some "North America"
    year := 2000
    startyear := 2000
    startmonth := 1
    startday := 15
    start_date := mkDate 2000 1 15
    location := none
    participants := Cell.blank
    participants_numeric := none
    participants_category := none
    protesterdemand1 := some "political behavior, process"
    stateresponse1 := some "ignore"
    protesterviolence := 0
    violence_label := some "Peaceful"
    protesteridentity := none }

/-- A violent sample row in Asia. -/
def rowAsiaViolent : Row :=
  { sampleRow with
    id := 2
    country := some "China"
    region := some "Asia"
    protesterviolence := 1
    violence_label := some "Violent" }

/-- A sample row with a missing region. -/
def rowNoRegion : Row := { sampleRow with id := 3, region := none }

/-- A sample constraint set selecting everything in the samples. -/
def sampleConstraints : Constraints :=
  { yearLo := 1990, yearHi := 2020,
    regions := ["North America", "Asia"],
    countries := ["Canada", "China"],
    demands := ["political behavior, process"],
    responses := ["ignore"],
    violence := ViolenceOpt.all }

/-- The sample constraints with every region deselected. -/
def noRegionConstraints : Constraints :=
  { sampleConstraints with regions := [] }

/-- A sample raw spreadsheet row. -/
def sampleRaw : RawRow :=
  { id := 1, country := some "Canada", region := some "North America",
    year := 2000, startyear := some 2000, startmonth := none,
    startday := some 15, location := none, participants := Cell.str "100",
    participants_category := some "100-999",
    protesterdemand1 := none, stateresponse1 := some "ignore",
    protesterviolence := some 1, protesteridentity := none }

/-- A one-row table whose only year is 2000. -/
def trendTable : List Row :=
  [{ sampleRow with
      protesterviolence := 1
      violence_label := some "Violent" }]

/-- A violent copy of the sample row. -/
def sampleRowViolent : Row :=
  { sampleRow with
    id := 2
    protesterviolence := 1
    violence_label := some "Violent" }

/-- A two-row table in year 2000, one row violent. -/
def trendTable2 : List Row := [sampleRow, sampleRowViolent]

/-- A three-row table over two countries and two years. -/
def heatTable : List Row :=
  [sampleRow, rowAsiaViolent, { sampleRow with id := 4, year := 2001 }]

/-! ### The claims -/

/-- C1: for every loaded table, year range and selection of regions,
countries, demands, responses and violence option, the filtered set is
exactly the rows with `a ≤ year ≤ b`, region among the selected regions,
country among the selected countries, demand selected or missing,
response selected or missing, and the violence constraint satisfied. -/
theorem c1_filtered_exact (tbl : List Row) (c : Constraints) (r : Row) :
    r ∈ filterTable tbl c ↔
      r ∈ tbl ∧ c.yearLo ≤ r.year ∧ r.year ≤ c.yearHi ∧
      (∃ g, r.region = some g ∧ g ∈ c.regions) ∧
      (∃ k, r.country = some k ∧ k ∈ c.countries) ∧
      ((∃ d, r.protesterdemand1 = some d ∧ d ∈ c.demands) ∨
        r.protesterdemand1 = none) ∧
      ((∃ s, r.stateresponse1 = some s ∧ s ∈ c.responses) ∨
        r.stateresponse1 = none) ∧
      violenceOk c r :=
  mem_filterTable_iff tbl c r

/-- C1 witness: the sample row passes the sample filter. -/
theorem c1_filtered_exact_witness :
    sampleRow ∈ filterTable [sampleRow] sampleConstraints :=
  (c1_filtered_exact [sampleRow] sampleConstraints sampleRow).mpr
    ⟨by decide, by decide, by decide,
      ⟨"North America", rfl, by decide⟩,
      ⟨"Canada", rfl, by decide⟩,
      Or.inl ⟨"political behavior, process", rfl, by decide⟩,
      Or.inl ⟨"ignore", rfl, by decide⟩,
      by decide⟩

/-- C2 (amended): a year with filtered rows is reported with rate
`round(v/t*100, 1)`; a year with 0 filtered rows has no entry in the
aggregation output at all (so no NaN and no error), rather than being
reported as 0. -/
theorem c2_trend_rate (t : List Row) (y : Int)
    (hpv : ∀ r ∈ t, r.protesterviolence = 0 ∨ r.protesterviolence = 1) :
    (totalIn t y = 0 → violTrendRate t y = none) ∧
    (0 < totalIn t y →
      violTrendRate t y =
        some (round1 ((violentRowsIn t y : ℚ) / (totalIn t y : ℚ) * 100))) := by
  constructor
  · intro h0
    rw [violTrendRate_eq, if_neg]
    intro hmem
    rw [mem_trendYears] at hmem
    omega
  · intro hpos
    rw [violTrendRate_eq, if_pos ((mem_trendYears t y).mpr hpos),
      trendEntry_rate t y hpv]

/-- C2 witness: in a concrete two-row table, year 2000's rate is the
rounded violent percentage. -/
theorem c2_trend_rate_witness :
    violTrendRate trendTable2 2000 =
      some (round1 ((violentRowsIn trendTable2 2000 : ℚ) /
        (totalIn trendTable2 2000 : ℚ) * 100)) :=
  (c2_trend_rate trendTable2 2000 (by decide)).2 (by decide)

/-- C2 counterexample: in a table whose only rows are in year 2000, the
year 2001 has 0 filtered rows, yet no rate 0 is reported for it — the
year is absent from the aggregation output. -/
theorem c2_trend_rate_counterexample :
    violTrendRate trendTable 2001 ≠ some 0 ∧
      violTrendRate trendTable 2001 = none := by
  have h : violTrendRate trendTable 2001 = none := rfl
  exact ⟨by simp [h], h⟩

/-- C3: on an empty filtered set no KPI divides by zero: violent
percentage is 0, the year span reads "N/A", and the total, country and
region counts are 0. -/
theorem c3_empty_kpis (tbl : List Row) (c : Constraints)
    (h : filterTable tbl c = []) :
    violent_pct (filterTable tbl c) = 0 ∧
    yearSpanKPI (filterTable tbl c) = none ∧
    totalProtests (filterTable tbl c) = 0 ∧
    countriesKPI (filterTable tbl c) = 0 ∧
    regionsKPI (filterTable tbl c) = 0 := by
  rw [h]
  refine ⟨?_, ?_, ?_, ?_, ?_⟩ <;>
    simp [violent_pct, yearSpanKPI, totalProtests, countriesKPI,
      regionsKPI, nunique]

/-- C3 witness: deselecting every region empties the filtered set and
the KPIs degrade gracefully. -/
theorem c3_empty_kpis_witness :
    violent_pct (filterTable [sampleRow] noRegionConstraints) = 0 ∧
    yearSpanKPI (filterTable [sampleRow] noRegionConstraints) = none ∧
    totalProtests (filterTable [sampleRow] noRegionConstraints) = 0 ∧
    countriesKPI (filterTable [sampleRow] noRegionConstraints) = 0 ∧
    regionsKPI (filterTable [sampleRow] noRegionConstraints) = 0 :=
  c3_empty_kpis [sampleRow] noRegionConstraints (by decide)

/-- C4: after loader normalization of a schema-conformant violence value
(0, 1 or missing), `protesterviolence` is 0 or 1, and `violence_label`
is "Violent" iff it is 1 and "Peaceful" iff it is 0. -/
theorem c4_violence_invariant (raw : RawRow)
    (h : raw.protesterviolence = none ∨ raw.protesterviolence = some 0 ∨
      raw.protesterviolence = some 1) :
    ((normalizeRow raw).protesterviolence = 0 ∨
      (normalizeRow raw).protesterviolence = 1) ∧
    ((normalizeRow raw).violence_label = some "Violent" ↔
      (normalizeRow raw).protesterviolence = 1) ∧
    ((normalizeRow raw).violence_label = some "Peaceful" ↔
      (normalizeRow raw).protesterviolence = 0) := by
  rcases h with h | h | h <;>
    simp [normalizeRow, violenceLabel, h]

/-- C4 witness: the invariant at a concrete raw row. -/
theorem c4_violence_invariant_witness :
    ((normalizeRow sampleRaw).protesterviolence = 0 ∨
      (normalizeRow sampleRaw).protesterviolence = 1) ∧
    ((normalizeRow sampleRaw).violence_label = some "Violent" ↔
      (normalizeRow sampleRaw).protesterviolence = 1) ∧
    ((normalizeRow sampleRaw).violence_label = some "Peaceful" ↔
      (normalizeRow sampleRaw).protesterviolence = 0) :=
  c4_violence_invariant sampleRaw (by decide)

/-- C5: loader normalization is per-field and non-fatal: missing
start-month/day default to 1, missing start-year defaults to the row's
year, `start_date` is the calendar date of the defaulted parts and is
missing exactly on invalid combinations, `participants_numeric` is the
best-effort parse, and no row is dropped. -/
theorem c5_normalization_non_fatal (rows : List RawRow) (raw : RawRow) :
    (raw.startmonth = none → (normalizeRow raw).startmonth = 1) ∧
    (∀ v, raw.startmonth = some v → (normalizeRow raw).startmonth = v) ∧
    (raw.startday = none → (normalizeRow raw).startday = 1) ∧
    (∀ v, raw.startday = some v → (normalizeRow raw).startday = v) ∧
    (raw.startyear = none → (normalizeRow raw).startyear = raw.year) ∧
    (∀ v, raw.startyear = some v → (normalizeRow raw).startyear = v) ∧
    (normalizeRow raw).start_date =
      mkDate (normalizeRow raw).startyear (normalizeRow raw).startmonth
        (normalizeRow raw).startday ∧
    ((normalizeRow raw).start_date = none ↔
      ¬(1 ≤ (normalizeRow raw).startmonth ∧
        (normalizeRow raw).startmonth ≤ 12 ∧
        1 ≤ (normalizeRow raw).startday ∧
        (normalizeRow raw).startday ≤
          daysInMonth (normalizeRow raw).startyear
            (normalizeRow raw).startmonth)) ∧
    (normalizeRow raw).participants_numeric = toNumeric raw.participants ∧
    load_data (ExcelFile.parsed rows) = Except.ok (rows.map normalizeRow) ∧
    (rows.map normalizeRow).length = rows.length := by
  refine ⟨?_, ?_, ?_, ?_, ?_, ?_, rfl, ?_, rfl, rfl, List.length_map _ _⟩
  · intro h
    simp [normalizeRow, h]
  · intro v h
    simp [normalizeRow, h]
  · intro h
    simp [normalizeRow, h]
  · intro v h
    simp [normalizeRow, h]
  · intro h
    simp [normalizeRow, h]
  · intro v h
    simp [normalizeRow, h]
  · exact mkDate_eq_none_iff (normalizeRow raw).startyear
      (normalizeRow raw).startmonth (normalizeRow raw).startday

/-- C5 witness: the loader keeps a concrete parsed row. -/
theorem c5_normalization_witness :
    load_data (ExcelFile.parsed [sampleRaw]) =
      Except.ok ([sampleRaw].map normalizeRow) :=
  (c5_normalization_non_fatal [sampleRaw]
    sampleRaw).2.2.2.2.2.2.2.2.2.1

/-- C6: a missing or unparseable spreadsheet makes the loader fail with
a `DataLoadError` and no partial table; a parseable one yields the full
normalized table. -/
theorem c6_load_contract (f : ExcelFile) :
    ((f = ExcelFile.missing ∨ f = ExcelFile.malformed) →
      ∃ e, load_data f = Except.error e) ∧
    (∀ rows, f = ExcelFile.parsed rows →
      load_data f = Except.ok (rows.map normalizeRow)) := by
  constructor
  · intro h
    rcases h with h | h <;> subst h
    · exact ⟨DataLoadError.fileMissing, rfl⟩
    · exact ⟨DataLoadError.unparseable, rfl⟩
  · intro rows h
    subst h
    rfl

/-- C6 witness: a missing file produces a load error. -/
theorem c6_load_contract_witness :
    ∃ e, load_data ExcelFile.missing = Except.error e :=
  (c6_load_contract ExcelFile.missing).1 (Or.inl rfl)

/-- C7: for every N in 5..30 the heatmap matrix rows are exactly the
top-N countries by total count (dominating every left-out country),
cells count the matching events (0 where there are none), and the rows
are ordered ascending by row total. -/
theorem c7_heat_pivot (t : List Row) (n : Nat) (h5 : 5 ≤ n) (h30 : n ≤ 30) :
    (heat_pivot_rows t n).Perm (top_countries_list t n) ∧
    (heat_pivot_rows t n).length =
      min n (dropNA (t.map (·.country))).dedup.length ∧
    (∀ c, c ∈ heat_pivot_rows t n → ∀ c',
      c' ∈ dropNA (t.map (·.country)) → c' ∉ heat_pivot_rows t n →
      countryCount t c' ≤ countryCount t c) ∧
    (∀ c y, heatCell t n c y =
      (heatRestricted t n).countP
        (fun r => r.country == some c && r.year == y)) ∧
    (∀ c, c ∈ heat_pivot_rows t n → ∀ y,
      t.countP (fun r => r.country == some c && r.year == y) = 0 →
      heatCell t n c y = 0) ∧
    List.Sorted (· ≤ ·) ((heat_pivot_rows t n).map (heatRowTotal t n)) := by
  have hperm := heat_pivot_rows_perm t n
  refine ⟨hperm, ?_, ?_, heatCell_eq t n, ?_, heat_pivot_rows_sorted t n⟩
  · rw [hperm.length_eq, top_countries_list, List.length_map,
      List.length_take, length_valueCounts]
  · intro c hc c' hc' hc'n
    exact top_countries_ge t n c c' (hperm.mem_iff.mp hc) hc'
      (fun hm => hc'n (hperm.mem_iff.mpr hm))
  · intro c hc y h0
    have hctop : c ∈ top_countries_list t n := hperm.mem_iff.mp hc
    have hin : ∀ r : Row, (r.country == some c && r.year == y) = true →
        optIsin r.country (top_countries_list t n) = true := by
      intro r hr
      have hcr : r.country = some c := by
        simp only [Bool.and_eq_true, beq_iff_eq] at hr
        exact hr.1
      rw [hcr, optIsin]
      simpa [List.elem_iff] using hctop
    rw [heatCell_eq, countP_heatRestricted_eq t n _ hin, h0]

/-- C7 witness: the pivot rows of a concrete table at N = 5 are a
permutation of its top-5 countries. -/
theorem c7_heat_pivot_witness :
    (heat_pivot_rows heatTable 5).Perm (top_countries_list heatTable 5) :=
  (c7_heat_pivot heatTable 5 (by decide) (by decide)).1

/-- C8: for every country among the pivot's rows, its cell values summed
across all year columns equal its total count in the filtered set. -/
theorem c8_row_sum (t : List Row) (n : Nat) (c : String)
    (h : c ∈ heat_pivot_rows t n) :
    ((heatCols t n).map (heatCell t n c)).sum = countryCount t c :=
  heatRowTotal_eq t n c ((heat_pivot_rows_perm t n).mem_iff.mp h)

/-- C8 witness: the row sum of Canada in a concrete pivot. -/
theorem c8_row_sum_witness :
    ((heatCols heatTable 5).map (heatCell heatTable 5 "Canada")).sum =
      countryCount heatTable "Canada" :=
  c8_row_sum heatTable 5 "Canada" (by decide)

/-- C9: the demand-by-region aggregation counts filtered rows by
(region, demand); rows with a missing demand are dropped entirely and
match no group, unlike the filter's null passthrough. -/
theorem c9_demand_region (t : List Row) :
    (∀ g d, demandRegionCount t g d =
      t.countP (fun r =>
        r.region == some g && r.protesterdemand1 == some d)) ∧
    ((demand_region_df t).map (·.2)).sum =
      t.countP (fun r => r.region.isSome && r.protesterdemand1.isSome) ∧
    (∀ r ∈ t, r.protesterdemand1 = none →
      ∀ k ∈ demandRegionKeys t,
        ¬((r.region == some k.1 && r.protesterdemand1 == some k.2) = true)) := by
  refine ⟨demandRegionCount_eq t, demand_region_total t, ?_⟩
  intro r _ hd k _ hmatch
  rw [hd] at hmatch
  simp at hmatch

/-- C9 witness: the Asia × sample-demand group of a concrete table. -/
theorem c9_demand_region_witness :
    demandRegionCount heatTable "Asia" "political behavior, process" =
      heatTable.countP (fun r =>
        r.region == some "Asia" &&
        r.protesterdemand1 == some "political behavior, process") :=
  (c9_demand_region heatTable).1 "Asia" "political behavior, process"

/-- C10: a row with a missing region or a missing country never appears
in the filtered set, whatever the selections are. -/
theorem c10_missing_geo_excluded (tbl : List Row) (c : Constraints)
    (r : Row) (h : r.region = none ∨ r.country = none) :
    r ∉ filterTable tbl c := by
  intro hmem
  rw [filterTable, List.mem_filter] at hmem
  rw [mask_false_of_missing c r h] at hmem
  simpa using hmem.2

/-- C10 witness: the region-less sample row is filtered out even though
its table contains it and everything else is selected. -/
theorem c10_missing_geo_excluded_witness :
    rowNoRegion ∉ filterTable [rowNoRegion] sampleConstraints :=
  c10_missing_geo_excluded [rowNoRegion] sampleConstraints rowNoRegion
    (Or.inl rfl)

end MassMob
